import Mathlib

/-!
Verification development for the code-wrapped session-parsing and
aggregation core (Python sources under src/code_wrapped/).  The Python
functions are shallowly embedded as executable Lean definitions; machine
floats become rationals, dictionaries become insertion-ordered association
lists, and fallible code returns Option.
-/

namespace CodeWrapped

/-! ## Calendar arithmetic

Python datetime/date values are modelled structurally.  Day deltas
(Python date subtraction) are computed through a civil-calendar day
ordinal (the standard days-from-civil algorithm), so that two dates are
calendar-consecutive exactly when their ordinals differ by 1. -/

/-- Day ordinal of a civil date (days since 0000-03-01); models the value
Python date subtraction is based on, so dateOrdinal a - dateOrdinal b is
the day delta between two dates. -/
def dateOrdinal (y m d : Nat) : Nat :=
  let y2 := if m ≤ 2 then y - 1 else y
  let era := y2 / 400
  let yoe := y2 - era * 400
  let mp := if 3 ≤ m then m - 3 else m + 9
  let doy := (153 * mp + 2) / 5 + d - 1
  let doe := yoe * 365 + yoe / 4 - yoe / 100 + doy
  era * 146097 + doe

/-- Inverse of the civil-calendar conversion: maps a count of days since
1970-01-01 (nonnegative) to a (year, month, day) triple; models Python
datetime.fromtimestamp date computation for post-epoch instants. -/
def civilFromDays (z0 : Nat) : Nat × Nat × Nat :=
  let z := z0 + 719468
  let era := z / 146097
  let doe := z % 146097
  let yoe := (doe - doe / 1460 + doe / 36524 - doe / 146096) / 365
  let y := yoe + era * 400
  let doy := doe - (365 * yoe + yoe / 4 - yoe / 100)
  let mp := (5 * doy + 2) / 153
  let d := doy - (153 * mp + 2) / 5 + 1
  let m := if mp < 10 then mp + 3 else mp - 9
  (if m ≤ 2 then y + 1 else y, m, d)

/-- Gregorian leap-year test, as used by Python's calendar validation. -/
def isLeapYear (y : Nat) : Bool :=
  y % 4 = 0 && (y % 100 ≠ 0 || y % 400 = 0)

/-- Number of days in a month, as validated by Python date construction. -/
def daysInMonth (y m : Nat) : Nat :=
  if m = 2 then (if isLeapYear y then 29 else 28)
  else if m = 4 ∨ m = 6 ∨ m = 9 ∨ m = 11 then 30
  else 31

/-- Zero-padded two-digit decimal rendering (strftime %m / %d). -/
def pad2 (n : Nat) : String :=
  if n < 10 then "0" ++ toString n else toString n

/-- Zero-padded four-digit decimal rendering (strftime %Y for common years). -/
def pad4 (n : Nat) : String :=
  if n < 10 then "000" ++ toString n
  else if n < 100 then "00" ++ toString n
  else if n < 1000 then "0" ++ toString n
  else toString n

/-! ## Datetime model

A Python datetime is modelled by its stored calendar fields plus an
optional fixed UTC offset in minutes (none models a naive datetime).
Attribute access (hour, strftime) reads the stored fields as-is; only
subtraction and comparison of aware datetimes convert to an instant. -/

/-- Structural model of a Python datetime value: stored wall-clock fields
plus an optional UTC offset in minutes (none = naive). -/
structure PyDateTime where
  year : Nat
  month : Nat
  day : Nat
  hour : Nat
  minute : Nat
  second : Nat
  microsecond : Nat
  tzOffsetMinutes : Option Int
deriving DecidableEq, Repr

/-- Whole-second instant of a datetime on the civil day-ordinal timeline;
models the integer part of the value Python aware-datetime subtraction
and comparison are based on (naive datetimes are treated as offset 0). -/
def toEpochSeconds (t : PyDateTime) : Int :=
  (dateOrdinal t.year t.month t.day : Int) * 86400
    + t.hour * 3600 + t.minute * 60 + t.second
    - 60 * t.tzOffsetMinutes.getD 0

/-- Exact instant of a datetime in seconds, including microseconds;
models timedelta total_seconds of differences between datetimes. -/
def toEpochSecondsQ (t : PyDateTime) : ℚ :=
  (toEpochSeconds t : ℚ) + (t.microsecond : ℚ) / 1000000

/-- Models comparison of two aware Python datetimes (instant order). -/
def dtLt (a b : PyDateTime) : Bool :=
  decide (toEpochSecondsQ a < toEpochSecondsQ b)

/-- Models datetime.fromtimestamp applied to epoch milliseconds divided by
1000 with the UTC timezone, as the Cursor parser does with createdAt. -/
def fromTimestampUtcMs (ms : Nat) : PyDateTime :=
  let secs := ms / 1000
  let days := secs / 86400
  let rem := secs % 86400
  let ymd := civilFromDays days
  { year := ymd.1, month := ymd.2.1, day := ymd.2.2,
    hour := rem / 3600, minute := rem % 3600 / 60, second := rem % 60,
    microsecond := ms % 1000 * 1000, tzOffsetMinutes := some 0 }

/-! ## Session model (parsers/base.py) -/

/-- Supported AI coding agents (class AgentType in parsers/base.py). -/
inductive AgentType where
  | claude
  | codex
  | cursor
  | gemini
deriving DecidableEq, Repr

/-- Enum declaration order of AgentType, which is also the iteration
order of the per-agent statistics dictionary in aggregate_stats. -/
def agentList : List AgentType :=
  [AgentType.claude, AgentType.codex, AgentType.cursor, AgentType.gemini]

/-- Unified session model across all agents (dataclass Session in
parsers/base.py).  Dictionaries become insertion-ordered association
lists; float minutes become rationals. -/
structure Session where
  id : String
  agent : AgentType
  started_at : PyDateTime
  ended_at : Option PyDateTime := none
  duration_minutes : ℚ := 0
  repo : Option String := none
  branch : Option String := none
  turn_count : Nat := 0
  user_message_count : Nat := 0
  assistant_message_count : Nat := 0
  token_count : Option Nat := none
  tools_used : List (String × Nat) := []
  user_prompts : List String := []
  errors : List String := []
deriving DecidableEq, Repr

/-- Session construction including the post-init hook: when ended_at is
present, duration_minutes is overwritten with the start-to-end delta in
minutes; otherwise the field default 0 is kept. -/
def Session.make (s : Session) : Session :=
  match s.ended_at with
  | some e =>
      { s with duration_minutes := (toEpochSecondsQ e - toEpochSecondsQ s.started_at) / 60 }
  | none => s

/-- Hour when the session started: the stored hour attribute of
started_at, with no timezone normalization (property hour_of_day). -/
def Session.hour_of_day (s : Session) : Nat :=
  s.started_at.hour

/-- Session date key: started_at rendered by strftime as YYYY-MM-DD from
the stored calendar fields, with no timezone normalization. -/
def Session.date_str (s : Session) : String :=
  pad4 s.started_at.year ++ "-" ++ pad2 s.started_at.month ++ "-" ++ pad2 s.started_at.day

/-! ## extract_repo_from_path (parsers/base.py)

A filesystem path is modelled by its pathlib parts (root segment
included); null or empty input is modelled by none.  The home directory
is passed explicitly as its parts. -/

/-- Fixed list of well-known container-directory names scanned by
extract_repo_from_path, in the order the code checks them. -/
def gitDirs : List String :=
  ["git", "projects", "repos", "src", "code"]

/-- Loop body of extract_repo_from_path: for each container name in
order, if it occurs among the parts and has a following segment, return
that single following segment (parts at index of first occurrence + 1). -/
def containerLookup (parts : List String) : List String → Option String
  | [] => none
  | g :: gs =>
      if parts.contains g then
        let idx := parts.indexOf g
        if idx + 1 < parts.length then some (parts.getD (idx + 1) "")
        else containerLookup parts gs
      else containerLookup parts gs

/-- Models the name attribute of a pathlib path: the final segment,
treated as absent when it is the root or empty. -/
def pathFinalName (parts : List String) : Option String :=
  match parts.getLast? with
  | none => none
  | some s => if s = "/" ∨ s = "" then none else some s

/-- Extract sanitized repo name from a working-directory path
(extract_repo_from_path in parsers/base.py): none for null/empty input,
a tilde for the home directory, the segment right after the first
recognized container directory, else the final path segment. -/
def extract_repo_from_path (home : List String) : Option (List String) → Option String
  | none => none
  | some parts =>
      if parts = home then some "~"
      else
        match containerLookup parts gitDirs with
        | some r => some r
        | none => pathFinalName parts

/-! ## sanitize_prompt (parsers/base.py)

The sanitizer applies, in order: truncation to max_length with an
ellipsis, five case-insensitive credential regex substitutions, and two
case-sensitive home-path substitutions.  Each regex of the fixed set is
embedded as a dedicated matcher giving, at a position, the length of the
leftmost match starting there and its replacement text; the generic
substitution loop reproduces re.sub (leftmost, non-overlapping). -/

/-- Whitespace class of the regex escape backslash-s, over the ASCII
whitespace characters. -/
def isSpaceChar (c : Char) : Bool :=
  c = ' ' || c = '\t' || c = '\n' || c = '\r' || c = '\x0b' || c = '\x0c'

/-- Length of the maximal prefix of a character list satisfying p
(greedy quantifier over a single character class). -/
def countWhile (p : Char → Bool) : List Char → Nat
  | [] => 0
  | c :: cs => if p c then countWhile p cs + 1 else 0

/-- Case-insensitive literal prefix match returning the remainder
(models a literal in a regex compiled with IGNORECASE). -/
def stripLitCI : List Char → List Char → Option (List Char)
  | [], l => some l
  | _ :: _, [] => none
  | p :: ps, c :: cs =>
      if c.toLower = p.toLower then stripLitCI ps cs else none

/-- Case-sensitive literal prefix match returning the remainder. -/
def stripLitCS : List Char → List Char → Option (List Char)
  | [], l => some l
  | _ :: _, [] => none
  | p :: ps, c :: cs => if c = p then stripLitCS ps cs else none

/-- Replacement marker used by every credential substitution. -/
def redactedText : List Char :=
  "[REDACTED]".data

/-- Matcher for the OpenAI-key pattern sk- followed by at least 20
alphanumerics (IGNORECASE). -/
def matchSk (l : List Char) : Option (Nat × List Char) :=
  match stripLitCI "sk-".data l with
  | none => none
  | some r =>
      let n := countWhile Char.isAlphanum r
      if 20 ≤ n then some (3 + n, redactedText) else none

/-- Matcher for the Anthropic-key pattern sk-ant- followed by at least
20 characters that are alphanumeric or a hyphen (IGNORECASE). -/
def matchSkAnt (l : List Char) : Option (Nat × List Char) :=
  match stripLitCI "sk-ant-".data l with
  | none => none
  | some r =>
      let n := countWhile (fun c => c.isAlphanum || c = '-') r
      if 20 ≤ n then some (7 + n, redactedText) else none

/-- Matcher for the GitHub-token pattern ghp_ followed by exactly 36
alphanumerics (IGNORECASE). -/
def matchGhp (l : List Char) : Option (Nat × List Char) :=
  match stripLitCI "ghp_".data l with
  | none => none
  | some r =>
      if 36 ≤ countWhile Char.isAlphanum r then some (40, redactedText) else none

/-- Matcher for the password assignment pattern: literal password, one of
equals or colon, optional whitespace, then at least one non-space
character, all greedy (IGNORECASE). -/
def matchPassword (l : List Char) : Option (Nat × List Char) :=
  match stripLitCI "password".data l with
  | none => none
  | some r =>
      match r with
      | c :: cs =>
          if c = '=' || c = ':' then
            let s := countWhile isSpaceChar cs
            let t := countWhile (fun c => !isSpaceChar c) (cs.drop s)
            if 1 ≤ t then some (8 + 1 + s + t, redactedText) else none
          else none
      | [] => none

/-- Matcher for the api-key assignment pattern: literal api, an optional
underscore or hyphen, literal key, one of equals or colon, optional
whitespace, at least one non-space character (IGNORECASE).  When the
optional separator is consumed but the following literal fails, the
regex backtracks to the empty alternative, which then also fails since
the separator character cannot start the literal key; so no retry is
needed. -/
def matchApiKey (l : List Char) : Option (Nat × List Char) :=
  match stripLitCI "api".data l with
  | none => none
  | some r1 =>
      let opt : Nat × List Char :=
        match r1 with
        | c :: cs => if c = '_' || c = '-' then (1, cs) else (0, r1)
        | [] => (0, r1)
      match stripLitCI "key".data opt.2 with
      | none => none
      | some r3 =>
          match r3 with
          | c :: cs =>
              if c = '=' || c = ':' then
                let s := countWhile isSpaceChar cs
                let t := countWhile (fun c => !isSpaceChar c) (cs.drop s)
                if 1 ≤ t then some (3 + opt.1 + 3 + 1 + s + t, redactedText) else none
              else none
          | [] => none

/-- Greedy split point for the home-path patterns: within R (a run of
non-space characters), the backtracking of the greedy middle group picks
the greatest index p with a slash at p, at least one character before
it, and a following character inside R that is not a slash (so the
captured trailing group is nonempty). -/
def findSlashSplit (R : List Char) : Option Nat :=
  (List.range R.length).foldl
    (fun acc p =>
      if R.getD p ' ' = '/' ∧ 1 ≤ p ∧ p + 1 < R.length ∧ R.getD (p + 1) ' ' ≠ '/' then some p
      else acc)
    none

/-- Matcher for a home-rooted path pattern (case-sensitive): the given
root literal, one non-slash segment, a slash, then a greedy non-space
run split at its last usable slash; the replacement is the captured
trailing component. -/
def matchHomeRoot (root : List Char) (l : List Char) : Option (Nat × List Char) :=
  match stripLitCS root l with
  | none => none
  | some r1 =>
      let a := countWhile (fun c => c ≠ '/') r1
      if a = 0 then none
      else
        match r1.drop a with
        | '/' :: r2 =>
            let R := r2.takeWhile (fun c => !isSpaceChar c)
            match findSlashSplit R with
            | none => none
            | some p =>
                let g := countWhile (fun c => c ≠ '/') (R.drop (p + 1))
                some (root.length + a + 1 + p + 1 + g, (R.drop (p + 1)).take g)
        | _ => none

/-- Matcher for the /Users home-path pattern. -/
def matchUsersPath (l : List Char) : Option (Nat × List Char) :=
  matchHomeRoot "/Users/".data l

/-- Matcher for the /home home-path pattern. -/
def matchHomePath (l : List Char) : Option (Nat × List Char) :=
  matchHomeRoot "/home/".data l

/-- Generic substitution loop modelling re.sub, structurally recursive
on a fuel argument: scan left to right, at each position emit the
replacement of the leftmost match starting there and continue past it,
otherwise keep the character.  Every matcher in the fixed set matches
at least one character, so each step strictly shortens the list and a
fuel equal to the initial length never runs out. -/
def subAllFuel (m : List Char → Option (Nat × List Char)) : Nat → List Char → List Char
  | f + 1, c :: cs =>
      (match m (c :: cs) with
        | some r => r.2 ++ subAllFuel m f (cs.drop (r.1 - 1))
        | none => c :: subAllFuel m f cs)
  | _, l => l

/-- Substitution of all non-overlapping leftmost matches (re.sub). -/
def subAll (m : List Char → Option (Nat × List Char)) (l : List Char) : List Char :=
  subAllFuel m l.length l

/-- Truncation stage of sanitize_prompt: prompts longer than max_length
are cut to max_length characters and an ellipsis is appended. -/
def truncateStage (maxLength : Nat) (prompt : String) : String :=
  if maxLength < prompt.length then String.mk (prompt.data.take maxLength) ++ "..."
  else prompt

/-- Sanitize a user prompt (sanitize_prompt in parsers/base.py) with an
explicit max length: truncate, then apply the five credential
substitutions and the two home-path substitutions in source order. -/
def sanitize_prompt_max (prompt : String) (maxLength : Nat) : String :=
  if prompt = "" then ""
  else
    let p := truncateStage maxLength prompt
    let l := p.data
    let l := subAll matchSk l
    let l := subAll matchSkAnt l
    let l := subAll matchGhp l
    let l := subAll matchPassword l
    let l := subAll matchApiKey l
    let l := subAll matchUsersPath l
    let l := subAll matchHomePath l
    String.mk l

/-- Sanitize a user prompt at the default max length of 200 characters,
as every caller in the repository does. -/
def sanitize_prompt (prompt : String) : String :=
  sanitize_prompt_max prompt 200

/-! ## parse_iso_timestamp (parsers/base.py)

The standard-library datetime.fromisoformat is modelled for the format
family YYYY-MM-DD, optionally followed by a single separator character
and HH with optional :MM, :SS, fractional seconds of three or six
digits, and an optional UTC offset of the form sign HH:MM, with full
calendar and range validation as Python performs. -/

/-- Parse exactly n ASCII digits into a number, returning the remainder. -/
def parseDigits : Nat → List Char → Option (Nat × List Char)
  | 0, l => some (0, l)
  | _ + 1, [] => none
  | n + 1, c :: cs =>
      if c.isDigit then
        match parseDigits n cs with
        | some r => some ((c.toNat - '0'.toNat) * 10 ^ n + r.1, r.2)
        | none => none
      else none

/-- Parse a literal character, returning the remainder. -/
def parseLit (x : Char) : List Char → Option (List Char)
  | [] => none
  | c :: cs => if c = x then some cs else none

/-- Parse the optional fractional-second part (a dot then exactly three
or six digits), returning the microsecond value. -/
def parseFraction (l : List Char) : Option (Nat × List Char) :=
  match l with
  | '.' :: cs =>
      match parseDigits 6 cs with
      | some r => some (r.1, r.2)
      | none =>
          match parseDigits 3 cs with
          | some r => some (r.1 * 1000, r.2)
          | none => none
  | _ => none

/-- Parse a UTC offset of the form sign HH:MM, returning minutes. -/
def parseOffset (l : List Char) : Option (Int × List Char) :=
  match l with
  | c :: cs =>
      if c = '+' ∨ c = '-' then
        match parseDigits 2 cs with
        | some h =>
            match parseLit ':' h.2 with
            | some r1 =>
                match parseDigits 2 r1 with
                | some m =>
                    if h.1 ≤ 23 ∧ m.1 ≤ 59 then
                      some (if c = '+' then (h.1 * 60 + m.1 : Int) else -(h.1 * 60 + m.1 : Int), m.2)
                    else none
                | none => none
            | none => none
        | none => none
      else none
  | [] => none

/-- Parse the time-of-day part HH with optional :MM, :SS, fraction, and
offset, with range validation. -/
def parseTimePart (l : List Char) : Option (Nat × Nat × Nat × Nat × Option Int × List Char) :=
  match parseDigits 2 l with
  | none => none
  | some hh =>
      if hh.1 ≤ 23 then
        let rest1 := hh.2
        match parseLit ':' rest1 with
        | none =>
            match parseOffset rest1 with
            | some o => some (hh.1, 0, 0, 0, some o.1, o.2)
            | none => some (hh.1, 0, 0, 0, none, rest1)
        | some r2 =>
            match parseDigits 2 r2 with
            | none => none
            | some mm =>
                if mm.1 ≤ 59 then
                  match parseLit ':' mm.2 with
                  | none =>
                      match parseOffset mm.2 with
                      | some o => some (hh.1, mm.1, 0, 0, some o.1, o.2)
                      | none => some (hh.1, mm.1, 0, 0, none, mm.2)
                  | some r3 =>
                      match parseDigits 2 r3 with
                      | none => none
                      | some ss =>
                          if ss.1 ≤ 59 then
                            let frac :=
                              match parseFraction ss.2 with
                              | some f => (f.1, f.2)
                              | none => (0, ss.2)
                            match parseOffset frac.2 with
                            | some o => some (hh.1, mm.1, ss.1, frac.1, some o.1, o.2)
                            | none => some (hh.1, mm.1, ss.1, frac.1, none, frac.2)
                          else none
                else none
      else none

/-- Model of datetime.fromisoformat for the common ISO-8601 forms: a
calendar-validated date YYYY-MM-DD, optionally followed by one
separator character and a validated time-of-day with optional
fractional seconds and UTC offset; any leftover input fails. -/
def fromisoformat (s : String) : Option PyDateTime :=
  match parseDigits 4 s.data with
  | none => none
  | some y =>
      match parseLit '-' y.2 with
      | none => none
      | some r1 =>
          match parseDigits 2 r1 with
          | none => none
          | some mo =>
              match parseLit '-' mo.2 with
              | none => none
              | some r2 =>
                  match parseDigits 2 r2 with
                  | none => none
                  | some d =>
                      if 1 ≤ mo.1 ∧ mo.1 ≤ 12 ∧ 1 ≤ d.1 ∧ d.1 ≤ daysInMonth y.1 mo.1 then
                        match d.2 with
                        | [] => some ⟨y.1, mo.1, d.1, 0, 0, 0, 0, none⟩
                        | _ :: rest =>
                            match parseTimePart rest with
                            | some t =>
                                match t.2.2.2.2.2 with
                                | [] => some ⟨y.1, mo.1, d.1, t.1, t.2.1, t.2.2.1, t.2.2.2.1, t.2.2.2.2.1⟩
                                | _ => none
                            | none => none
                      else none

/-- Replace every occurrence of the character Z by the five characters
of +00:00, modelling the string replace call in parse_iso_timestamp. -/
def subZ : List Char → List Char
  | [] => []
  | c :: cs =>
      if c = 'Z' then '+' :: '0' :: '0' :: ':' :: '0' :: '0' :: subZ cs
      else c :: subZ cs

/-- Parse an ISO-8601 timestamp string (parse_iso_timestamp in
parsers/base.py): none for null or empty input; otherwise every Z is
replaced by +00:00 and the result is given to fromisoformat, any parse
failure degrading to none.  The embedding is a total function, so no
exception can escape. -/
def parse_iso_timestamp (ts : Option String) : Option PyDateTime :=
  match ts with
  | none => none
  | some s => if s = "" then none else fromisoformat (String.mk (subZ s.data))

/-! ## compute_streaks (stats.py)

The daily-count dictionary is an insertion-ordered association list from
date strings to counts.  Python sorts the active date strings (for the
zero-padded strftime keys this is calendar order), parses each with
strptime, and walks day deltas; a strptime failure raises, modelled by
an Option result. -/

/-- Parse a YYYY-MM-DD date string with calendar validation, modelling
the strptime call of compute_streaks; failure models the raised
ValueError. -/
def parseYmd (s : String) : Option (Nat × Nat × Nat) :=
  match parseDigits 4 s.data with
  | none => none
  | some y =>
      match parseLit '-' y.2 with
      | none => none
      | some r1 =>
          match parseDigits 2 r1 with
          | none => none
          | some mo =>
              match parseLit '-' mo.2 with
              | none => none
              | some r2 =>
                  match parseDigits 2 r2 with
                  | some d =>
                      if d.2 = [] ∧ 1 ≤ mo.1 ∧ mo.1 ≤ 12 ∧ 1 ≤ d.1 ∧ d.1 ≤ daysInMonth y.1 mo.1 then
                        some (y.1, mo.1, d.1)
                      else none
                  | none => none

/-- Day ordinal of a parsed date triple. -/
def ordOfTriple (t : Nat × Nat × Nat) : Nat :=
  dateOrdinal t.1 t.2.1 t.2.2

/-- Insert into a list sorted by the given comparison (stable). -/
def insertBy (le : α → α → Bool) (x : α) : List α → List α
  | [] => [x]
  | y :: ys => if le x y then x :: y :: ys else y :: insertBy le x ys

/-- Insertion sort by the given comparison; models Python sorted for a
total order. -/
def sortBy (le : α → α → Bool) (xs : List α) : List α :=
  xs.foldr (insertBy le) []

/-- Lexicographic code-point comparison of character lists, modelling
Python string comparison for sorting. -/
def charListLe : List Char → List Char → Bool
  | [], _ => true
  | _ :: _, [] => false
  | a :: as, b :: bs =>
      if a.toNat < b.toNat then true
      else if b.toNat < a.toNat then false
      else charListLe as bs

/-- String comparison used when sorting date keys. -/
def strLe (a b : String) : Bool :=
  charListLe a.data b.data

/-- Sorted active date strings of a daily-count mapping: the keys with
positive count, in ascending string order. -/
def activeDates (daily_sessions : List (String × Nat)) : List String :=
  sortBy strLe ((daily_sessions.filter (fun p => 0 < p.2)).map (fun p => p.1))

/-- Apply a fallible function to every element, failing when any single
application fails; models a Python list comprehension whose body can
raise. -/
def mapOption (f : α → Option β) : List α → Option (List β)
  | [] => some []
  | x :: xs =>
      match f x with
      | none => none
      | some y =>
          match mapOption f xs with
          | none => none
          | some ys => some (y :: ys)

/-- Day ordinals of the sorted active dates; none models the ValueError
strptime raises on a key that is not a valid date. -/
def activeOrdinals (daily_sessions : List (String × Nat)) : Option (List Nat) :=
  (mapOption parseYmd (activeDates daily_sessions)).map (fun l => l.map ordOfTriple)

/-- Longest-streak loop of compute_streaks: walk the sorted day
ordinals, growing a temporary run length on a day delta of exactly 1 and
resetting it to 1 otherwise, tracking the maximum. -/
def longestFrom (prev longest temp : Nat) : List Nat → Nat
  | [] => longest
  | d :: rest =>
      if d - prev = 1 then longestFrom d (max longest (temp + 1)) (temp + 1) rest
      else longestFrom d longest 1 rest

/-- Current-streak loop of compute_streaks on the reversed sorted day
ordinals: walk backward from the most recent active day while each step
back is exactly one calendar day. -/
def currentStreakRev : List Nat → Nat
  | [] => 0
  | [_] => 1
  | a :: b :: rest => if a - b = 1 then 1 + currentStreakRev (b :: rest) else 1

/-- Compute streak statistics from daily session counts (compute_streaks
in stats.py); none models the ValueError raised on an unparseable date
key, which cannot happen for strftime-produced keys. -/
def compute_streaks (daily_sessions : List (String × Nat)) : Option (Nat × Nat × Nat) :=
  if daily_sessions.isEmpty then some (0, 0, 0)
  else if (activeDates daily_sessions).isEmpty then some (0, 0, 0)
  else
    match activeOrdinals daily_sessions with
    | none => none
    | some [] => some (0, 0, 0)
    | some (d0 :: rest) =>
        some (longestFrom d0 1 1 rest, currentStreakRev (d0 :: rest).reverse,
          (activeDates daily_sessions).length)

/-! ## Aggregation engine (stats.py)

Python dictionaries used as accumulators are modelled as
insertion-ordered association lists; get-or-zero increments preserve
insertion order.  The per-agent dictionary, keyed by the four enum
members, is modelled as a function on AgentType. -/

/-- Increment the value stored under a key by n, appending the key at
the end when absent; models d at k becomes d.get(k, 0) + n on an
insertion-ordered Python dictionary. -/
def bump [BEq α] (m : List (α × Nat)) (k : α) (n : Nat) : List (α × Nat) :=
  match m with
  | [] => [(k, n)]
  | (k0, v) :: rest => if k0 == k then (k0, v + n) :: rest else (k0, v) :: bump rest k n

/-- Value stored under a key, with a default; models dict get. -/
def lookupCount [BEq α] (m : List (α × Nat)) (k : α) (dflt : Nat) : Nat :=
  match m.find? (fun p => p.1 == k) with
  | some p => p.2
  | none => dflt

/-- First entry with the maximal value, scanning in insertion order;
models Python max with a value key, which keeps the first maximum. -/
def maxBySnd (m : List (α × Nat)) : Option (α × Nat) :=
  match m with
  | [] => none
  | x :: xs => some (xs.foldl (fun b y => if b.2 < y.2 then y else b) x)

/-- Statistics for a single agent (dataclass AgentStats in stats.py). -/
structure AgentStats where
  agent : AgentType
  session_count : Nat := 0
  turn_count : Nat := 0
  token_count : Nat := 0
  user_message_count : Nat := 0
  assistant_message_count : Nat := 0
  total_duration_minutes : ℚ := 0
  repos : List (String × Nat) := []
  tools_used : List (String × Nat) := []
  hours_distribution : List (Nat × Nat) := []
  daily_sessions : List (String × Nat) := []
  longest_session_minutes : ℚ := 0
  longest_session_id : Option String := none
  most_turns_session : Nat := 0
  most_turns_session_id : Option String := none
deriving DecidableEq, Repr

/-- Aggregated statistics for Code Wrapped (dataclass WrappedStats in
stats.py); the per-agent dictionary is a function on the enum. -/
structure WrappedStats where
  year : Int
  generated_at : PyDateTime
  agent_stats : AgentType → AgentStats
  total_sessions : Nat := 0
  total_turns : Nat := 0
  total_tokens : Nat := 0
  total_duration_minutes : ℚ := 0
  all_repos : List (String × Nat) := []
  all_tools : List (String × Nat) := []
  hours_distribution : List (Nat × Nat) := []
  daily_sessions : List (String × Nat) := []
  longest_streak_days : Nat := 0
  current_streak_days : Nat := 0
  active_days : Nat := 0
  most_active_day : Option String := none
  most_active_day_sessions : Nat := 0
  peak_hour : Nat := 0
  sessions : List Session := []
  all_errors : List (String × String) := []

/-- Update of one agent entry in the per-agent dictionary. -/
def updateAgent (f : AgentType → AgentStats) (a : AgentType) (g : AgentStats → AgentStats) :
    AgentType → AgentStats :=
  fun x => if x = a then g (f x) else f x

/-- Per-session folding step of aggregate_stats: counters, token count
when truthy, repo when truthy, tool counts, hour and day distributions
at both granularities, record holders under strict comparison, and
error accumulation. -/
def aggStep (stats : WrappedStats) (s : Session) : WrappedStats :=
  let ag := stats.agent_stats s.agent
  let ag :=
    { ag with
        session_count := ag.session_count + 1
        turn_count := ag.turn_count + s.turn_count
        user_message_count := ag.user_message_count + s.user_message_count
        assistant_message_count := ag.assistant_message_count + s.assistant_message_count
        total_duration_minutes := ag.total_duration_minutes + s.duration_minutes }
  let ag :=
    if s.token_count.getD 0 ≠ 0 then { ag with token_count := ag.token_count + s.token_count.getD 0 }
    else ag
  let repoTruthy : Bool := match s.repo with
    | some r => r != ""
    | none => false
  let ag :=
    if repoTruthy then { ag with repos := bump ag.repos (s.repo.getD "") 1 } else ag
  let allRepos :=
    if repoTruthy then bump stats.all_repos (s.repo.getD "") 1 else stats.all_repos
  let ag :=
    { ag with
        tools_used :=
          s.tools_used.foldl (fun m (p : String × Nat) => bump m p.1 p.2) ag.tools_used }
  let allTools := s.tools_used.foldl (fun m (p : String × Nat) => bump m p.1 p.2) stats.all_tools
  let hour := s.hour_of_day
  let ag := { ag with hours_distribution := bump ag.hours_distribution hour 1 }
  let allHours := bump stats.hours_distribution hour 1
  let date := s.date_str
  let ag := { ag with daily_sessions := bump ag.daily_sessions date 1 }
  let allDaily := bump stats.daily_sessions date 1
  let ag :=
    if ag.longest_session_minutes < s.duration_minutes then
      { ag with longest_session_minutes := s.duration_minutes, longest_session_id := some s.id }
    else ag
  let ag :=
    if ag.most_turns_session < s.turn_count then
      { ag with most_turns_session := s.turn_count, most_turns_session_id := some s.id }
    else ag
  { stats with
      agent_stats := updateAgent stats.agent_stats s.agent (fun _ => ag)
      all_repos := allRepos
      all_tools := allTools
      hours_distribution := allHours
      daily_sessions := allDaily
      all_errors := stats.all_errors ++ s.errors.map (fun e => (s.id, e)) }

/-- Totals pass of aggregate_stats: sum the per-agent counters into the
global totals, iterating the agents in enum order. -/
def aggTotals (stats : WrappedStats) : WrappedStats :=
  agentList.foldl
    (fun st a =>
      let ag := st.agent_stats a
      { st with
          total_sessions := st.total_sessions + ag.session_count
          total_turns := st.total_turns + ag.turn_count
          total_tokens := st.total_tokens + ag.token_count
          total_duration_minutes := st.total_duration_minutes + ag.total_duration_minutes })
    stats

/-- Initial accumulator of aggregate_stats: the year, the wall-clock
reading datetime.now() (passed explicitly as the parameter now), the
retained session list, and one fresh AgentStats per enum member. -/
def aggInit (sessions : List Session) (year : Int) (now : PyDateTime) : WrappedStats :=
  { year := year, generated_at := now, sessions := sessions,
    agent_stats := fun a => { agent := a } }

/-- Closing passes of aggregate_stats after the fold and the totals:
the streak figures from the global daily counts, the busiest day, and
the peak hour (first maximum wins in both).  The streak call uses the
default branch on a parse failure, which strftime-produced day keys
cannot trigger. -/
def aggFinish (stats0 : WrappedStats) : WrappedStats :=
  let streaks := (compute_streaks stats0.daily_sessions).getD (0, 0, 0)
  let stats :=
    { stats0 with
        longest_streak_days := streaks.1
        current_streak_days := streaks.2.1
        active_days := streaks.2.2 }
  let stats :=
    match maxBySnd stats.daily_sessions with
    | some p => { stats with most_active_day := some p.1, most_active_day_sessions := p.2 }
    | none => stats
  match maxBySnd stats.hours_distribution with
  | some p => { stats with peak_hour := p.1 }
  | none => stats

/-- Aggregate statistics from all sessions (aggregate_stats in
stats.py): fold every session into the accumulator, sum the per-agent
totals, then compute streaks and record days/hours. -/
def aggregate_stats (sessions : List Session) (year : Int) (now : PyDateTime) : WrappedStats :=
  aggFinish (aggTotals (sessions.foldl aggStep (aggInit sessions year now)))

/-! ## Token accounting (parsers/claude.py) -/

/-- Token-usage record of an assistant message; absent integer fields
default to zero as the chained dict gets do. -/
structure Usage where
  input_tokens : Nat := 0
  cache_creation_input_tokens : Nat := 0
  cache_read_input_tokens : Nat := 0
  output_tokens : Nat := 0
deriving DecidableEq, Repr

/-- Transcript record as seen by extract_token_count: its role
discriminator and its optional usage record (none models a message with
no usage data, whose fields read as zero). -/
structure TranscriptMsg where
  type : String
  usage : Option Usage := none
deriving DecidableEq, Repr

/-- Contribution of one record to the input-token accumulator of
extract_token_count: direct input plus cache creation plus cache read
for an assistant record, nothing otherwise. -/
def assistantInputTokens (m : TranscriptMsg) : Nat :=
  if m.type = "assistant" then
    (m.usage.getD {}).input_tokens + (m.usage.getD {}).cache_creation_input_tokens
      + (m.usage.getD {}).cache_read_input_tokens
  else 0

/-- Contribution of one record to the output-token accumulator. -/
def assistantOutputTokens (m : TranscriptMsg) : Nat :=
  if m.type = "assistant" then (m.usage.getD {}).output_tokens else 0

/-- Input-token sum of extract_token_count over the whole transcript. -/
def totalInputTokens (messages : List TranscriptMsg) : Nat :=
  messages.foldl (fun acc m => acc + assistantInputTokens m) 0

/-- Output-token sum of extract_token_count over the whole transcript. -/
def totalOutputTokens (messages : List TranscriptMsg) : Nat :=
  messages.foldl (fun acc m => acc + assistantOutputTokens m) 0

/-- Sum up token usage from assistant messages (extract_token_count in
parsers/claude.py): the grand total when either the input or the output
sum is truthy, otherwise none. -/
def extract_token_count (messages : List TranscriptMsg) : Option Nat :=
  let ti := totalInputTokens messages
  let to2 := totalOutputTokens messages
  if ti ≠ 0 ∨ to2 ≠ 0 then some (ti + to2) else none

/-- Whether any record of the transcript carries usage data. -/
def hasUsageData (messages : List TranscriptMsg) : Bool :=
  messages.any (fun m => m.usage.isSome)

/-- Grand token total over assistant records, stated independently of
the two-accumulator loop as a filtered sum. -/
def tokenSumSpec (messages : List TranscriptMsg) : Nat :=
  ((messages.filter (fun m => m.type = "assistant")).map
    (fun m =>
      let u := m.usage.getD {}
      u.input_tokens + u.cache_creation_input_tokens + u.cache_read_input_tokens
        + u.output_tokens)).sum

/-! ## Cursor parser (parsers/cursor.py) -/

/-- Metadata blob of one composer row, as read from the JSON value:
creation time in epoch milliseconds and the UI mode field. -/
structure ComposerBlob where
  createdAt : Option Nat := none
  unifiedMode : Option String := none
deriving DecidableEq, Repr

/-- Split a character list at colons, keeping empty pieces; models the
Python string split on a colon. -/
def splitColonAux (acc : List Char) : List Char → List String
  | [] => [String.mk acc.reverse]
  | c :: cs =>
      if c = ':' then String.mk acc.reverse :: splitColonAux [] cs
      else splitColonAux (c :: acc) cs

/-- Colon-separated parts of a string key. -/
def splitColon (key : String) : List String :=
  splitColonAux [] key.data

/-- First scan of parse_cursor_sessions: count message-fragment keys per
composer identifier, taking the second colon-separated key part. -/
def bubbleCounts (bubbleKeys : List String) : List (String × Nat) :=
  bubbleKeys.foldl
    (fun m key =>
      let parts := splitColon key
      if 2 ≤ parts.length then bump m (parts.getD 1 "") 1 else m)
    []

/-- Session emitted for one composer row: identifier from the key, UTC
timestamp from createdAt milliseconds, turn count from the fragment
scan with a default of 1 when the identifier has no fragments, and
halved message-count estimates. -/
def mkCursorSession (counts : List (String × Nat)) (key : String) (b : ComposerBlob)
    (ts : PyDateTime) : Session :=
  let composerId := (splitColon key).getD 1 ""
  let turnCount := lookupCount counts composerId 1
  let mode := b.unifiedMode.getD "unknown"
  Session.make
    { id := composerId, agent := AgentType.cursor, started_at := ts,
      turn_count := turnCount,
      user_message_count := turnCount / 2,
      assistant_message_count := turnCount / 2,
      repo := none,
      tools_used := if mode ≠ "" ∧ mode ≠ "unknown" then [("cursor_mode", 1)] else [] }

/-- Row loop of parse_cursor_sessions: skip empty or unparseable blobs
and rows without a creation time, apply the date filters, and emit a
session per surviving composer row. -/
def cursorRows (counts : List (String × Nat)) (startDate endDate : Option PyDateTime) :
    List (String × Option ComposerBlob) → List Session
  | [] => []
  | (key, blob) :: rest =>
      match blob with
      | none => cursorRows counts startDate endDate rest
      | some b =>
          match b.createdAt with
          | none => cursorRows counts startDate endDate rest
          | some ms =>
              let ts := fromTimestampUtcMs ms
              let dropBefore := match startDate with
                | some t => dtLt ts t
                | none => false
              let dropAfter := match endDate with
                | some t => dtLt t ts
                | none => false
              if dropBefore || dropAfter then cursorRows counts startDate endDate rest
              else mkCursorSession counts key b ts :: cursorRows counts startDate endDate rest

/-- Parse Cursor composer sessions from the two key-value scans
(parse_cursor_sessions in parsers/cursor.py): join the fragment-count
scan and the metadata scan on the composer identifier embedded in both
key namespaces. -/
def parse_cursor_sessions (bubbleKeys : List String)
    (rows : List (String × Option ComposerBlob))
    (startDate endDate : Option PyDateTime) : List Session :=
  cursorRows (bubbleCounts bubbleKeys) startDate endDate rows

/-! ## Specification-side definitions

Definitions in this section follow the wording of the specification,
independently of the loops in the source, so that the loop results can
be compared against them. -/

/-- Maximum of a list of naturals, zero for the empty list. -/
def listMax (l : List Nat) : Nat :=
  l.foldr max 0

/-- Lengths of the maximal runs of consecutive ordinals continuing a run
of current length acc whose last element is prev. -/
def runLensFrom (prev acc : Nat) : List Nat → List Nat
  | [] => [acc]
  | d :: rest =>
      if d - prev = 1 then runLensFrom d (acc + 1) rest
      else acc :: runLensFrom d 1 rest

/-- Decomposition of a sorted list of day ordinals into the lengths of
its maximal calendar-consecutive runs (the specification's notion of
streaks: a run is a block of dates with day delta exactly 1). -/
def runLens : List Nat → List Nat
  | [] => []
  | d :: rest => runLensFrom d 1 rest

/-- Chain predicate on a most-recent-first list of day ordinals: every
step back is exactly one calendar day (the specification's walk
backward from the most recent active day). -/
def isDescChain : List Nat → Bool
  | [] => true
  | [_] => true
  | a :: b :: rest => decide (a - b = 1) && isDescChain (b :: rest)

/-! ## Helper lemmas -/

theorem foldr_max_max (a b : Nat) (l : List Nat) :
    l.foldr max (max a b) = max b (l.foldr max a) := by
  induction l with
  | nil => simp [Nat.max_comm]
  | cons x xs ih => simp [List.foldr_cons, ih]; omega

theorem le_foldr_max (a : Nat) (l : List Nat) : a ≤ l.foldr max a := by
  induction l with
  | nil => exact Nat.le_refl a
  | cons x xs ih => exact le_trans ih (Nat.le_max_right x _)

theorem acc_le_foldr_runLensFrom (l : List Nat) :
    ∀ prev a L, a ≤ (runLensFrom prev a l).foldr max L := by
  induction l with
  | nil =>
      intro prev a L
      simp only [runLensFrom, List.foldr_cons, List.foldr_nil]
      exact Nat.le_max_left a L
  | cons d rest ih =>
      intro prev a L
      by_cases h : d - prev = 1
      · simp only [runLensFrom]
        rw [if_pos h]
        exact le_trans (Nat.le_succ a) (ih d (a + 1) L)
      · simp only [runLensFrom]
        rw [if_neg h]
        simp only [List.foldr_cons]
        exact Nat.le_max_left a _

theorem longestFrom_eq_foldr (l : List Nat) :
    ∀ prev T L, 1 ≤ T → T ≤ L →
      longestFrom prev L T l = (runLensFrom prev T l).foldr max L := by
  induction l with
  | nil =>
      intro prev T L h1 h2
      simp only [longestFrom, runLensFrom, List.foldr_cons, List.foldr_nil]
      omega
  | cons d rest ih =>
      intro prev T L h1 h2
      by_cases h : d - prev = 1
      · simp only [longestFrom, runLensFrom]
        rw [if_pos h, if_pos h]
        rw [ih d (T + 1) (max L (T + 1)) (by omega) (Nat.le_max_right _ _)]
        rw [foldr_max_max]
        have := acc_le_foldr_runLensFrom rest d (T + 1) L
        omega
      · simp only [longestFrom, runLensFrom]
        rw [if_neg h, if_neg h]
        simp only [List.foldr_cons]
        rw [ih d 1 L (Nat.le_refl 1) (le_trans h1 h2)]
        have := le_foldr_max L (runLensFrom d 1 rest)
        omega

theorem longestFrom_eq_listMax (d0 : Nat) (rest : List Nat) :
    longestFrom d0 1 1 rest = listMax (runLens (d0 :: rest)) := by
  have h := longestFrom_eq_foldr rest d0 1 1 (Nat.le_refl 1) (Nat.le_refl 1)
  have h2 : (runLensFrom d0 1 rest).foldr max 1 =
      max 1 ((runLensFrom d0 1 rest).foldr max 0) := by
    have := foldr_max_max 0 1 (runLensFrom d0 1 rest)
    simpa using this
  have h3 := acc_le_foldr_runLensFrom rest d0 1 0
  simp only [listMax, runLens]
  omega

theorem isDescChain_take_two (a b : Nat) (rest : List Nat) (n : Nat) :
    isDescChain ((a :: b :: rest).take (n + 2)) =
      (decide (a - b = 1) && isDescChain ((b :: rest).take (n + 1))) := by
  simp only [List.take_succ_cons, isDescChain]

theorem currentStreakRev_spec (r : List Nat) (hne : r ≠ []) :
    1 ≤ currentStreakRev r ∧ currentStreakRev r ≤ r.length ∧
      isDescChain (r.take (currentStreakRev r)) = true ∧
      (currentStreakRev r < r.length → isDescChain (r.take (currentStreakRev r + 1)) = false) := by
  induction r with
  | nil => exact absurd rfl hne
  | cons a r ih =>
      cases r with
      | nil =>
          refine ⟨Nat.le_refl 1, Nat.le_refl 1, rfl, ?_⟩
          intro h
          simp [currentStreakRev] at h
      | cons b rest =>
          obtain ⟨ih1, ih2, ih3, ih4⟩ := ih (by simp)
          by_cases h : a - b = 1
          · have hc : currentStreakRev (a :: b :: rest) = 1 + currentStreakRev (b :: rest) := by
              simp only [currentStreakRev]
              rw [if_pos h]
            obtain ⟨n, hn⟩ := Nat.exists_eq_add_of_le ih1
            refine ⟨by omega, ?_, ?_, ?_⟩
            · simp only [hc, List.length_cons]
              simp only [List.length_cons] at ih2
              omega
            · have hEq : currentStreakRev (a :: b :: rest) = n + 2 := by omega
              rw [hEq, isDescChain_take_two]
              have : currentStreakRev (b :: rest) = n + 1 := by omega
              rw [this] at ih3
              simp only [List.take_succ_cons] at ih3 ⊢
              simp [h, ih3]
            · intro hlt
              have hEq : currentStreakRev (a :: b :: rest) + 1 = n + 3 := by omega
              rw [hEq]
              have h2 : isDescChain ((a :: b :: rest).take ((n + 1) + 2)) =
                  (decide (a - b = 1) && isDescChain ((b :: rest).take ((n + 1) + 1))) :=
                isDescChain_take_two a b rest (n + 1)
              rw [h2]
              have hlt' : currentStreakRev (b :: rest) < (b :: rest).length := by
                simp only [List.length_cons] at hlt ⊢
                omega
              have := ih4 hlt'
              have hcr : currentStreakRev (b :: rest) + 1 = n + 2 := by omega
              rw [hcr] at this
              simp only [List.take_succ_cons] at this ⊢
              simp [h, this]
          · have hc : currentStreakRev (a :: b :: rest) = 1 := by
              simp only [currentStreakRev]
              rw [if_neg h]
            refine ⟨by omega, by simp [hc], by simp [hc, isDescChain], ?_⟩
            intro _
            rw [hc]
            have h2 := isDescChain_take_two a b rest 0
            simp only [h2]
            simp [h]

theorem insertBy_length (le : α → α → Bool) (x : α) (l : List α) :
    (insertBy le x l).length = l.length + 1 := by
  induction l with
  | nil => rfl
  | cons y ys ih =>
      simp only [insertBy]
      by_cases h : le x y = true
      · rw [if_pos h]
        rfl
      · rw [if_neg h]
        simp [ih]

theorem sortBy_length (le : α → α → Bool) (l : List α) :
    (sortBy le l).length = l.length := by
  induction l with
  | nil => rfl
  | cons x xs ih =>
      simp only [sortBy, List.foldr_cons]
      rw [insertBy_length]
      simp only [sortBy] at ih
      rw [ih]
      rfl

theorem mapOption_length (f : α → Option β) (l : List α) (l2 : List β)
    (h : mapOption f l = some l2) : l2.length = l.length := by
  induction l generalizing l2 with
  | nil =>
      simp only [mapOption, Option.some_inj] at h
      subst h
      rfl
  | cons x xs ih =>
      simp only [mapOption] at h
      rcases hx : f x with _ | y
      · rw [hx] at h
        exact absurd h (by simp)
      · rw [hx] at h
        rcases hxs : mapOption f xs with _ | ys
        · rw [hxs] at h
          exact absurd h (by simp)
        · rw [hxs] at h
          simp only [Option.some_inj] at h
          subst h
          simp [ih ys hxs]

theorem filter_self_idem (p : α → Bool) (l : List α) :
    (l.filter p).filter p = l.filter p := by
  induction l with
  | nil => rfl
  | cons x xs ih =>
      by_cases h : p x = true
      · simp [List.filter_cons, h, ih]
      · simp [List.filter_cons, h, ih]

theorem activeDates_filter (ds : List (String × Nat)) :
    activeDates (ds.filter (fun p => 0 < p.2)) = activeDates ds := by
  simp only [activeDates]
  have : (ds.filter (fun p => decide (0 < p.2))).filter (fun p => decide (0 < p.2)) =
      ds.filter (fun p => decide (0 < p.2)) := filter_self_idem _ ds
  simp [this]

theorem activeDates_length (ds : List (String × Nat)) :
    (activeDates ds).length = (ds.filter (fun p => 0 < p.2)).length := by
  simp [activeDates, sortBy_length]

theorem activeOrdinals_filter (ds : List (String × Nat)) :
    activeOrdinals (ds.filter (fun p => 0 < p.2)) = activeOrdinals ds := by
  simp [activeOrdinals, activeDates_filter]

theorem activeOrdinals_nil_of_dates_nil (ds : List (String × Nat)) (os : List Nat)
    (hd : activeDates ds = []) (h : activeOrdinals ds = some os) : os = [] := by
  simp only [activeOrdinals, hd, mapOption] at h
  simp at h
  exact h

theorem compute_streaks_filter_invariant (ds : List (String × Nat)) :
    compute_streaks ds = compute_streaks (ds.filter (fun p => 0 < p.2)) := by
  by_cases h1 : ds = []
  · subst h1
    rfl
  · have h1' : ds.isEmpty = false := by simp [h1]
    by_cases h2 : ds.filter (fun p => 0 < p.2) = []
    · have hADnil : activeDates ds = [] := by
        rw [← activeDates_filter, h2]
        rfl
      simp [compute_streaks, h1', h2, hADnil]
    · have h2' : (ds.filter (fun p => 0 < p.2)).isEmpty = false := by simp [h2]
      have hADne : (activeDates ds).isEmpty = false := by
        have := activeDates_length ds
        rcases hAD : activeDates ds with _ | ⟨x, xs⟩
        · rw [hAD] at this
          simp at this
          exact absurd (List.length_eq_zero.mp this.symm) h2
        · rfl
      have hADne2 : (activeDates (ds.filter (fun p => 0 < p.2))).isEmpty = false := by
        rw [activeDates_filter]
        exact hADne
      simp only [compute_streaks, h1', h2', hADne, hADne2, Bool.false_eq_true, if_false,
        activeOrdinals_filter, activeDates_filter]

theorem compute_streaks_active_days (ds : List (String × Nat)) (t : Nat × Nat × Nat)
    (h : compute_streaks ds = some t) :
    t.2.2 = (ds.filter (fun p => 0 < p.2)).length := by
  simp only [compute_streaks] at h
  by_cases h1 : ds.isEmpty
  · rw [if_pos h1] at h
    have hds : ds = [] := by
      cases ds
      · rfl
      · simp at h1
    subst hds
    simp only [Option.some_inj] at h
    subst h
    rfl
  · rw [if_neg h1] at h
    by_cases h2 : (activeDates ds).isEmpty
    · rw [if_pos h2] at h
      simp only [Option.some_inj] at h
      subst h
      have : (activeDates ds).length = 0 := by
        cases hAD : activeDates ds
        · rfl
        · rw [hAD] at h2
          simp at h2
      rw [activeDates_length] at this
      simp [this]
    · rw [if_neg h2] at h
      rcases hAO : activeOrdinals ds with _ | os
      · rw [hAO] at h
        exact absurd h (by simp)
      · rw [hAO] at h
        rcases os with _ | ⟨d0, rest⟩
        · simp only [Option.some_inj] at h
          subst h
          have : (activeDates ds).length = 0 := by
            simp only [activeOrdinals] at hAO
            rcases hmo : mapOption parseYmd (activeDates ds) with _ | l2
            · rw [hmo] at hAO
              simp at hAO
            · rw [hmo] at hAO
              have hl2 := mapOption_length _ _ _ hmo
              have : l2 = [] := by
                simp at hAO
                exact hAO
              subst this
              simpa using hl2.symm
          rw [activeDates_length] at this
          simp [this]
        · simp only [Option.some_inj] at h
          subst h
          simp only []
          rw [← activeDates_length]

theorem compute_streaks_inversion (ds : List (String × Nat)) (t : Nat × Nat × Nat)
    (os : List Nat) (h : compute_streaks ds = some t) (hAO : activeOrdinals ds = some os) :
    (os = [] ∧ t = (0, 0, 0)) ∨
      (∃ d0 rest, os = d0 :: rest ∧
        t = (longestFrom d0 1 1 rest, currentStreakRev (d0 :: rest).reverse,
          (activeDates ds).length)) := by
  simp only [compute_streaks] at h
  by_cases h1 : ds.isEmpty
  · rw [if_pos h1] at h
    have hds : ds = [] := by
      cases ds
      · rfl
      · simp at h1
    subst hds
    have hos : os = [] := by
      simp [activeOrdinals, activeDates, sortBy, mapOption] at hAO
      exact hAO
    simp only [Option.some_inj] at h
    exact Or.inl ⟨hos, h.symm⟩
  · rw [if_neg h1] at h
    by_cases h2 : (activeDates ds).isEmpty
    · rw [if_pos h2] at h
      have hADnil : activeDates ds = [] := by
        cases hAD : activeDates ds
        · rfl
        · rw [hAD] at h2
          simp at h2
      have hos := activeOrdinals_nil_of_dates_nil ds os hADnil hAO
      simp only [Option.some_inj] at h
      exact Or.inl ⟨hos, h.symm⟩
    · rw [if_neg h2] at h
      rw [hAO] at h
      rcases os with _ | ⟨d0, rest⟩
      · simp only [Option.some_inj] at h
        exact Or.inl ⟨rfl, h.symm⟩
      · simp only [Option.some_inj] at h
        exact Or.inr ⟨d0, rest, rfl, h.symm⟩

theorem compute_streaks_longest (ds : List (String × Nat)) (t : Nat × Nat × Nat)
    (os : List Nat) (h : compute_streaks ds = some t) (hAO : activeOrdinals ds = some os) :
    t.1 = listMax (runLens os) := by
  rcases compute_streaks_inversion ds t os h hAO with ⟨hos, ht⟩ | ⟨d0, rest, hos, ht⟩
  · subst hos
    subst ht
    rfl
  · subst hos
    subst ht
    exact longestFrom_eq_listMax d0 rest

theorem foldl_add_eq_sum (f : α → Nat) (l : List α) (a : Nat) :
    l.foldl (fun acc x => acc + f x) a = a + (l.map f).sum := by
  induction l generalizing a with
  | nil => simp
  | cons x xs ih =>
      simp only [List.foldl_cons, List.map_cons, List.sum_cons, ih]
      omega

theorem tokenSumSpec_cons (m : TranscriptMsg) (ms : List TranscriptMsg) :
    tokenSumSpec (m :: ms) =
      (if m.type = "assistant" then
        (m.usage.getD {}).input_tokens + (m.usage.getD {}).cache_creation_input_tokens
          + (m.usage.getD {}).cache_read_input_tokens + (m.usage.getD {}).output_tokens
      else 0) + tokenSumSpec ms := by
  by_cases h : m.type = "assistant"
  · simp [tokenSumSpec, List.filter_cons, h]
  · simp [tokenSumSpec, List.filter_cons, h]

theorem tokens_split_eq_spec (l : List TranscriptMsg) :
    (l.map assistantInputTokens).sum + (l.map assistantOutputTokens).sum = tokenSumSpec l := by
  induction l with
  | nil => rfl
  | cons m ms ih =>
      rw [tokenSumSpec_cons]
      simp only [List.map_cons, List.sum_cons, assistantInputTokens, assistantOutputTokens]
      by_cases h : m.type = "assistant"
      · simp only [if_pos h]
        omega
      · simp only [if_neg h]
        omega

theorem totals_eq_tokenSumSpec (l : List TranscriptMsg) :
    totalInputTokens l + totalOutputTokens l = tokenSumSpec l := by
  simp only [totalInputTokens, totalOutputTokens, foldl_add_eq_sum]
  simpa using tokens_split_eq_spec l

theorem compute_streaks_current (ds : List (String × Nat)) (t : Nat × Nat × Nat)
    (os : List Nat) (h : compute_streaks ds = some t) (hAO : activeOrdinals ds = some os)
    (hne : os ≠ []) :
    1 ≤ t.2.1 ∧ t.2.1 ≤ os.length ∧ isDescChain (os.reverse.take t.2.1) = true ∧
      (t.2.1 < os.length → isDescChain (os.reverse.take (t.2.1 + 1)) = false) := by
  rcases compute_streaks_inversion ds t os h hAO with ⟨hos, ht⟩ | ⟨d0, rest, hos, ht⟩
  · exact absurd hos hne
  · subst hos
    subst ht
    have hrne : (d0 :: rest).reverse ≠ [] := by simp
    have := currentStreakRev_spec (d0 :: rest).reverse hrne
    simpa using this

/-- Replacement of the generated_at field only, used to express that the
aggregation depends on the wall clock through no other field. -/
def setGen (w : WrappedStats) (t : PyDateTime) : WrappedStats :=
  { w with generated_at := t }

set_option maxHeartbeats 2000000 in
theorem aggStep_setGen (w : WrappedStats) (s : Session) (t : PyDateTime) :
    aggStep (setGen w t) s = setGen (aggStep w s) t := by
  cases w
  rfl

theorem aggTotals_setGen (w : WrappedStats) (t : PyDateTime) :
    aggTotals (setGen w t) = setGen (aggTotals w) t := by
  cases w
  rfl

theorem aggFinish_setGen (w : WrappedStats) (t : PyDateTime) :
    aggFinish (setGen w t) = setGen (aggFinish w) t := by
  cases w with
  | mk y g ag ts tt tk td ar al hd ds ls cs ad mad mads ph ss ae =>
      simp only [aggFinish, setGen]
      rcases compute_streaks ds with _ | st <;>
        rcases maxBySnd ds with _ | p <;>
          rcases maxBySnd hd with _ | q <;> rfl

theorem foldl_aggStep_setGen (l : List Session) :
    ∀ (w : WrappedStats) (t : PyDateTime),
      l.foldl aggStep (setGen w t) = setGen (l.foldl aggStep w) t := by
  induction l with
  | nil => intro w t; rfl
  | cons s rest ih =>
      intro w t
      simp only [List.foldl_cons, aggStep_setGen]
      exact ih (aggStep w s) t

theorem subZ_of_trailing (l : List Char) :
    l.getLast? = some 'Z' → 'Z' ∉ l.dropLast →
      subZ l = l.dropLast ++ ('+' :: '0' :: '0' :: ':' :: '0' :: '0' :: []) := by
  induction l with
  | nil => intro h _; simp at h
  | cons c cs ih =>
      intro h1 h2
      cases cs with
      | nil =>
          simp only [List.getLast?_singleton, Option.some_inj] at h1
          subst h1
          rfl
      | cons d ds =>
          have hlast : (d :: ds).getLast? = some 'Z' := by
            rw [List.getLast?_cons_cons] at h1
            exact h1
          have hdrop : (c :: d :: ds).dropLast = c :: (d :: ds).dropLast := rfl
          rw [hdrop] at h2
          have hc : c ≠ 'Z' := fun hEq => h2 (by simp [hEq])
          have hmem : 'Z' ∉ (d :: ds).dropLast := fun hm => h2 (by simp [hm])
          rw [subZ, if_neg hc, ih hlast hmem, hdrop]
          rfl

/-! ## Concrete fixtures used by the claim theorems -/

/-- Daily-count mapping of the specification's gap example. -/
def gapExample : List (String × Nat) :=
  [("2025-06-15", 2), ("2025-06-16", 3), ("2025-06-18", 1), ("2025-06-19", 2)]

/-- Gap example with an explicit zero-count day inserted in the gap. -/
def gapExampleZero : List (String × Nat) :=
  [("2025-06-15", 2), ("2025-06-16", 3), ("2025-06-17", 0), ("2025-06-18", 1), ("2025-06-19", 2)]

/-- Sorted active day ordinals of the gap example. -/
def gapOrdinals : List Nat :=
  [dateOrdinal 2025 6 15, dateOrdinal 2025 6 16, dateOrdinal 2025 6 18, dateOrdinal 2025 6 19]

/-! ## Claim theorems -/

set_option maxRecDepth 1000000 in
/-- C1: compute_streaks filters to positive-count days, sorts them as
calendar dates and returns (longest_streak, current_streak,
active_days).  The specification's mapping examples hold (empty, single
day, gap example); a zero-count day in the gap neither counts toward
active_days nor bridges the streak, and zero-count entries are ignored
entirely (filtering them away never changes the result); active_days is
the number of positive-count entries; the longest streak equals the
maximum length of the maximal day-delta-1 runs of the sorted active day
ordinals; and the current streak is the maximal backward walk from the
most recent active date in which every step back is exactly one
calendar day. -/
theorem compute_streaks_matches_spec :
    compute_streaks [] = some (0, 0, 0) ∧
    compute_streaks [("2025-06-15", 5)] = some (1, 1, 1) ∧
    compute_streaks gapExample = some (2, 2, 4) ∧
    compute_streaks gapExampleZero = some (2, 2, 4) ∧
    (∀ ds, compute_streaks ds = compute_streaks (ds.filter (fun p => 0 < p.2))) ∧
    (∀ ds t, compute_streaks ds = some t →
      t.2.2 = (ds.filter (fun p => 0 < p.2)).length) ∧
    (∀ ds t os, compute_streaks ds = some t → activeOrdinals ds = some os →
      t.1 = listMax (runLens os)) ∧
    (∀ ds t os, compute_streaks ds = some t → activeOrdinals ds = some os → os ≠ [] →
      1 ≤ t.2.1 ∧ t.2.1 ≤ os.length ∧ isDescChain (os.reverse.take t.2.1) = true ∧
        (t.2.1 < os.length → isDescChain (os.reverse.take (t.2.1 + 1)) = false)) := by
  refine ⟨by decide, by decide, by decide, by decide,
    compute_streaks_filter_invariant, compute_streaks_active_days,
    compute_streaks_longest, compute_streaks_current⟩

set_option maxRecDepth 1000000 in
/-- Witness for C1: the universally quantified components of the claim
theorem evaluated on the gap example. -/
theorem compute_streaks_matches_spec_witness :
    compute_streaks gapExample = compute_streaks (gapExample.filter (fun p => 0 < p.2)) ∧
    (2, 2, 4).2.2 = (gapExample.filter (fun p => 0 < p.2)).length ∧
    (2, 2, 4).1 = listMax (runLens gapOrdinals) ∧
    (1 ≤ (2, 2, 4).2.1 ∧ (2, 2, 4).2.1 ≤ gapOrdinals.length ∧
      isDescChain (gapOrdinals.reverse.take (2, 2, 4).2.1) = true ∧
      ((2, 2, 4).2.1 < gapOrdinals.length →
        isDescChain (gapOrdinals.reverse.take ((2, 2, 4).2.1 + 1)) = false)) := by
  refine ⟨compute_streaks_matches_spec.2.2.2.2.1 gapExample,
    compute_streaks_matches_spec.2.2.2.2.2.1 gapExample (2, 2, 4) (by decide),
    compute_streaks_matches_spec.2.2.2.2.2.2.1 gapExample (2, 2, 4) gapOrdinals
      (by decide) (by decide),
    compute_streaks_matches_spec.2.2.2.2.2.2.2 gapExample (2, 2, 4) gapOrdinals
      (by decide) (by decide) (by decide)⟩

/-- C2: evaluation of extract_repo_from_path at the nested container
path from the repository's own test suite.  The code returns only the
single segment directly after the first container directory (the
grouping directory "work"), not everything after the container joined
as "work/secret-repo" as the claim, the specification, and the
repository's test test_nested_git_path state; the home, no-container
and null behaviours are as claimed. -/
theorem extract_repo_nested_path_divergence :
    extract_repo_from_path ["/", "Users", "dave"]
        (some ["/", "Users", "dave", "git", "work", "secret-repo"]) = some "work" ∧
    extract_repo_from_path ["/", "Users", "dave"]
        (some ["/", "Users", "dave", "git", "work", "secret-repo"]) ≠ some "work/secret-repo" ∧
    (∀ home : List String, extract_repo_from_path home (some home) = some "~") ∧
    extract_repo_from_path ["/", "Users", "dave"]
        (some ["/", "some", "random", "path", "project"]) = some "project" ∧
    extract_repo_from_path ["/", "Users", "dave"] none = none := by
  refine ⟨by decide, by decide, ?_, by decide, rfl⟩
  intro home
  simp [extract_repo_from_path]

/-- Flood of api-key assignments whose redaction lengthens the text
beyond the truncation bound: 22 copies of an 8-character match, each
replaced by the 10-character redaction marker. -/
def apikeyFlood : String :=
  String.join (List.replicate 22 "apikey=x ")

set_option maxRecDepth 1000000 in
/-- C3 counterexample: the sanitizer's output is not bounded by the
maximum length of 200 characters plus the ellipsis marker — a
198-character prompt made of api-key assignments (no truncation even
happens) sanitizes to 242 characters, because redaction runs after
truncation and each 8-character credential match is replaced by the
10-character redaction marker. -/
theorem sanitize_prompt_exceeds_max_counterexample :
    apikeyFlood.length = 198 ∧ (sanitize_prompt apikeyFlood).length = 242 ∧
    203 < (sanitize_prompt apikeyFlood).length := by
  refine ⟨by decide, by decide, by decide⟩

set_option maxRecDepth 1000000 in
/-- C3 amended: only the truncation stage respects the 200-plus-ellipsis
bound — prompts of at most 200 characters pass it unchanged and longer
prompts leave it with exactly 203 characters — while the subsequent
redaction substitutions may lengthen the text past the bound; the
credential patterns and the home-path collapse behave as specified on
the repository's own examples. -/
theorem sanitize_prompt_truncation_amended :
    (∀ s : String, s.length ≤ 200 → truncateStage 200 s = s) ∧
    (∀ s : String, 200 < s.length → (truncateStage 200 s).length = 203) ∧
    sanitize_prompt "password=hunter2" = "[REDACTED]" ∧
    sanitize_prompt "Use key sk-abc123xyz456789012345678901234567890" = "Use key [REDACTED]" ∧
    sanitize_prompt "Read /Users/dave/git/project/secrets.txt" = "Read secrets.txt" := by
  refine ⟨?_, ?_, by decide, by decide, by decide⟩
  · intro s h
    simp only [truncateStage]
    rw [if_neg]
    omega
  · intro s h
    simp only [truncateStage]
    rw [if_pos h]
    show ((String.mk (s.data.take 200)).data ++ "...".data).length = 203
    simp only [List.length_append, List.length_take, List.length_cons, List.length_nil]
    have hs : s.length = s.data.length := rfl
    rw [hs] at h
    omega

set_option maxRecDepth 1000000 in
/-- Witness for C3's amended theorem: the truncation-stage bounds
evaluated on a short prompt and on a 300-character prompt. -/
theorem sanitize_prompt_truncation_amended_witness :
    truncateStage 200 "short prompt" = "short prompt" ∧
    (truncateStage 200 (String.mk (List.replicate 300 'a'))).length = 203 :=
  ⟨sanitize_prompt_truncation_amended.1 "short prompt" (by decide),
   sanitize_prompt_truncation_amended.2.1 (String.mk (List.replicate 300 'a')) (by decide)⟩

/-- Single session of the specification's aggregation example. -/
def sessionEx : Session :=
  Session.make
    { id := "test-1", agent := AgentType.claude,
      started_at := ⟨2025, 6, 15, 14, 0, 0, 0, some 0⟩,
      turn_count := 10, user_message_count := 5, assistant_message_count := 5,
      repo := some "my-project", tools_used := [("Bash", 3), ("Edit", 2)] }

/-- Sessions starting at hours 9, 21 and 21 for the hour-distribution
example. -/
def hourSessions : List Session :=
  [Session.make
      { id := "morning", agent := AgentType.claude,
        started_at := ⟨2025, 6, 15, 9, 0, 0, 0, some 0⟩, turn_count := 5 },
   Session.make
      { id := "evening", agent := AgentType.claude,
        started_at := ⟨2025, 6, 15, 21, 0, 0, 0, some 0⟩, turn_count := 5 },
   Session.make
      { id := "evening2", agent := AgentType.claude,
        started_at := ⟨2025, 6, 16, 21, 0, 0, 0, some 0⟩, turn_count := 5 }]

/-- C4: aggregating the specification's single example session yields
one total session, ten total turns, one count for its repository and
three uses of the Bash tool; aggregating the three sessions at hours
9, 21, 21 yields the hour distribution with one session at 9 and two at
21 and peak hour 21, for any wall-clock reading. -/
theorem aggregate_stats_examples (now : PyDateTime) :
    (aggregate_stats [sessionEx] 2025 now).total_sessions = 1 ∧
    (aggregate_stats [sessionEx] 2025 now).total_turns = 10 ∧
    lookupCount (aggregate_stats [sessionEx] 2025 now).all_repos "my-project" 0 = 1 ∧
    lookupCount (aggregate_stats [sessionEx] 2025 now).all_tools "Bash" 0 = 3 ∧
    (aggregate_stats hourSessions 2025 now).hours_distribution = [(9, 1), (21, 2)] ∧
    (aggregate_stats hourSessions 2025 now).peak_hour = 21 :=
  ⟨rfl, rfl, rfl, rfl, rfl, rfl⟩

/-- Session whose recorded end time is one hour before its start. -/
def backwardSession : Session :=
  Session.make
    { id := "s", agent := AgentType.claude,
      started_at := ⟨2025, 6, 15, 12, 0, 0, 0, some 0⟩,
      ended_at := some ⟨2025, 6, 15, 11, 0, 0, 0, some 0⟩ }

/-- C5 counterexample: Session construction does not enforce a
nonnegative duration — with an end time one hour before the start time
the constructed session carries duration_minutes = -60 < 0. -/
theorem session_negative_duration_counterexample :
    backwardSession.duration_minutes < 0 := by
  show ((toEpochSecondsQ ⟨2025, 6, 15, 11, 0, 0, 0, some 0⟩
      - toEpochSecondsQ ⟨2025, 6, 15, 12, 0, 0, 0, some 0⟩) / 60 : ℚ) < 0
  simp [toEpochSecondsQ, toEpochSeconds, dateOrdinal]
  norm_num

/-- C5 amended: started_at is a required field of every session record;
construction keeps the duration default (zero) when ended_at is absent
and overwrites it with the start-to-end delta in minutes when present,
a value that is nonnegative whenever the end instant is not before the
start instant — but a backward end time is not rejected and produces a
negative duration. -/
theorem session_duration_amended (s : Session) :
    (s.ended_at = none → (Session.make s).duration_minutes = s.duration_minutes) ∧
    (∀ e, s.ended_at = some e →
      (Session.make s).duration_minutes =
        (toEpochSecondsQ e - toEpochSecondsQ s.started_at) / 60 ∧
      (toEpochSecondsQ s.started_at ≤ toEpochSecondsQ e →
        0 ≤ (Session.make s).duration_minutes)) := by
  constructor
  · intro h
    simp [Session.make, h]
  · intro e h
    have hm : (Session.make s).duration_minutes =
        (toEpochSecondsQ e - toEpochSecondsQ s.started_at) / 60 := by
      simp [Session.make, h]
    refine ⟨hm, ?_⟩
    intro hle
    rw [hm]
    have hnn : 0 ≤ toEpochSecondsQ e - toEpochSecondsQ s.started_at := by linarith
    positivity

/-- Session with no end time, for the C5 witness. -/
def openSession : Session :=
  { id := "open", agent := AgentType.claude,
    started_at := ⟨2025, 6, 15, 12, 0, 0, 0, some 0⟩ }

/-- Raw fields of a session whose end is one hour after its start. -/
def forwardRaw : Session :=
  { id := "fwd", agent := AgentType.claude,
    started_at := ⟨2025, 6, 15, 11, 0, 0, 0, some 0⟩,
    ended_at := some ⟨2025, 6, 15, 12, 0, 0, 0, some 0⟩ }

/-- Witness for C5's amended theorem: a session without an end time
keeps duration zero, and a forward end time yields a nonnegative
duration. -/
theorem session_duration_amended_witness :
    (Session.make openSession).duration_minutes = 0 ∧
    0 ≤ (Session.make forwardRaw).duration_minutes :=
  ⟨(session_duration_amended openSession).1 rfl,
   ((session_duration_amended forwardRaw).2 _ rfl).2
     (by simp [toEpochSecondsQ, toEpochSeconds, dateOrdinal, forwardRaw]; norm_num)⟩

/-- Validity of a string as an ISO-8601 timestamp with trailing UTC
designator: it ends with Z, contains no other Z (ISO-8601 admits Z only
as the trailing designator), and parses once the designator is replaced
by the +00:00 offset. -/
def validIsoZ (s : String) : Prop :=
  s.data.getLast? = some 'Z' ∧ 'Z' ∉ s.data.dropLast ∧
    (fromisoformat (String.mk (s.data.dropLast
      ++ ('+' :: '0' :: '0' :: ':' :: '0' :: '0' :: [])))).isSome = true

/-- C6: for every valid ISO-8601 string with trailing Z,
parse_iso_timestamp returns exactly the timestamp obtained by parsing
the same string with the trailing Z replaced by +00:00, and that result
is present; null input, empty input and any string that fails ISO
parsing yield none — the embedding is a total function, so no failure
can escape as an exception. -/
theorem parse_iso_timestamp_spec :
    (∀ s : String, validIsoZ s →
      parse_iso_timestamp (some s) =
        fromisoformat (String.mk (s.data.dropLast
          ++ ('+' :: '0' :: '0' :: ':' :: '0' :: '0' :: []))) ∧
      (parse_iso_timestamp (some s)).isSome = true) ∧
    parse_iso_timestamp none = none ∧
    parse_iso_timestamp (some "") = none ∧
    (∀ s : String, s ≠ "" → fromisoformat (String.mk (subZ s.data)) = none →
      parse_iso_timestamp (some s) = none) := by
  refine ⟨?_, rfl, rfl, ?_⟩
  · intro s hv
    obtain ⟨h1, h2, h3⟩ := hv
    have hne : s ≠ "" := by
      intro hEq
      subst hEq
      simp at h1
    have hsub : subZ s.data = s.data.dropLast ++ ('+' :: '0' :: '0' :: ':' :: '0' :: '0' :: []) :=
      subZ_of_trailing s.data h1 h2
    have hp : parse_iso_timestamp (some s) =
        fromisoformat (String.mk (s.data.dropLast
          ++ ('+' :: '0' :: '0' :: ':' :: '0' :: '0' :: []))) := by
      simp only [parse_iso_timestamp, if_neg hne, hsub]
    refine ⟨hp, ?_⟩
    rw [hp]
    exact h3
  · intro s hne hfail
    simp only [parse_iso_timestamp, if_neg hne, hfail]

/-- Witness for C6: the specification's example timestamp with trailing
Z, and a garbage string degrading to none. -/
theorem parse_iso_timestamp_spec_witness :
    parse_iso_timestamp (some "2025-06-15T14:00:00Z") =
      fromisoformat (String.mk ("2025-06-15T14:00:00Z".data.dropLast
        ++ ('+' :: '0' :: '0' :: ':' :: '0' :: '0' :: []))) ∧
    (parse_iso_timestamp (some "2025-06-15T14:00:00Z")).isSome = true ∧
    parse_iso_timestamp (some "not a date") = none := by
  refine ⟨(parse_iso_timestamp_spec.1 "2025-06-15T14:00:00Z" ⟨by decide, by decide, by decide⟩).1,
    (parse_iso_timestamp_spec.1 "2025-06-15T14:00:00Z" ⟨by decide, by decide, by decide⟩).2,
    parse_iso_timestamp_spec.2.2.2 "not a date" (by decide) (by decide)⟩

/-- Transcript with usage data present but reporting zero tokens. -/
def zeroUsageTranscript : List TranscriptMsg :=
  [⟨"assistant", some ⟨0, 0, 0, 0⟩⟩]

/-- C7 counterexample: a transcript whose only assistant record carries
a usage block with all token fields zero yields none, not zero — usage
data exists in the transcript yet the result is null, so null is not
equivalent to the absence of usage data and a zero-token transcript is
not distinguishable from one with no usage data. -/
theorem extract_token_count_zero_usage_counterexample :
    extract_token_count zeroUsageTranscript = none ∧
    hasUsageData zeroUsageTranscript = true := by
  refine ⟨by decide, by decide⟩

/-- C7 amended: the token count is null exactly when the grand total of
input, cache-write, cache-read and output tokens over assistant-role
records is zero — which happens both when no usage data exists and
when present usage reports only zeros — and otherwise it is exactly
that grand total. -/
theorem extract_token_count_amended (messages : List TranscriptMsg) :
    (extract_token_count messages = none ↔ tokenSumSpec messages = 0) ∧
    (∀ n, extract_token_count messages = some n → n = tokenSumSpec messages) := by
  have hts := totals_eq_tokenSumSpec messages
  by_cases hc : totalInputTokens messages ≠ 0 ∨ totalOutputTokens messages ≠ 0
  · constructor
    · simp only [extract_token_count, if_pos hc]
      constructor
      · intro h
        exact absurd h (by simp)
      · intro h
        omega
    · intro n h
      simp only [extract_token_count, if_pos hc, Option.some_inj] at h
      omega
  · constructor
    · simp only [extract_token_count, if_neg hc]
      push_neg at hc
      constructor
      · intro _
        omega
      · intro _
        trivial
    · intro n h
      simp only [extract_token_count, if_neg hc] at h
      exact absurd h (by simp)

/-- Transcript with nonzero usage for the C7 witness. -/
def usageTranscript : List TranscriptMsg :=
  [⟨"assistant", some ⟨3, 1, 2, 4⟩⟩, ⟨"user", some ⟨9, 9, 9, 9⟩⟩]

/-- Witness for C7's amended theorem: the zero-usage transcript is null
with grand total zero, and a transcript with ten assistant tokens
reports exactly ten. -/
theorem extract_token_count_amended_witness :
    (extract_token_count zeroUsageTranscript = none ↔ tokenSumSpec zeroUsageTranscript = 0) ∧
    (10 : Nat) = tokenSumSpec usageTranscript :=
  ⟨(extract_token_count_amended zeroUsageTranscript).1,
   (extract_token_count_amended usageTranscript).2 10 (by decide)⟩

/-- Composer metadata rows with one valid composer and no message
fragments anywhere in the store. -/
def lonelyComposerRows : List (String × Option ComposerBlob) :=
  [("composerData:c1", some ⟨some 1000000, none⟩)]

/-- C8 counterexample: a composer with metadata but zero message
fragments is emitted with turn_count 1, while its true fragment count
is 0 — the message count is a defaulted value, not the fragment count
of the fragment-count scan. -/
theorem cursor_default_turn_count_counterexample :
    (parse_cursor_sessions [] lonelyComposerRows none none).map Session.turn_count = [1] ∧
    lookupCount (bubbleCounts []) "c1" 0 = 0 := by
  refine ⟨by decide, by decide⟩

/-- Structure of every session emitted by the Cursor row loop: it is
the session built from some surviving row. -/
theorem cursorRows_mem (counts : List (String × Nat)) (sd ed : Option PyDateTime)
    (rows : List (String × Option ComposerBlob)) (s : Session)
    (h : s ∈ cursorRows counts sd ed rows) :
    ∃ key b ts, s = mkCursorSession counts key b ts := by
  induction rows with
  | nil => simp [cursorRows] at h
  | cons row rest ih =>
      obtain ⟨key, blob⟩ := row
      rcases blob with _ | b
      · simp only [cursorRows] at h
        exact ih h
      · rcases hca : b.createdAt with _ | ms
        · simp only [cursorRows, hca] at h
          exact ih h
        · simp only [cursorRows, hca] at h
          split at h
          · exact ih h
          · rcases List.mem_cons.mp h with hEq | hmem
            · exact ⟨key, b, fromTimestampUtcMs ms, hEq⟩
            · exact ih hmem

/-- C8 amended: every session the Cursor parser emits joins the two
scans on the composer identifier, but its turn count is the fragment
count only when fragments exist — an identifier with no fragment keys
defaults to turn_count 1 — and the per-role message counts are halved
estimates of the turn count, not true counts. -/
theorem cursor_turn_count_amended (bubbleKeys : List String)
    (rows : List (String × Option ComposerBlob)) (s : Session)
    (h : s ∈ parse_cursor_sessions bubbleKeys rows none none) :
    s.turn_count = lookupCount (bubbleCounts bubbleKeys) s.id 1 ∧
    s.user_message_count = s.turn_count / 2 ∧
    s.assistant_message_count = s.turn_count / 2 := by
  obtain ⟨key, b, ts, hEq⟩ := cursorRows_mem (bubbleCounts bubbleKeys) none none rows s h
  subst hEq
  simp [mkCursorSession, Session.make]

/-- Fragment keys naming three fragments of composer c1. -/
def c1BubbleKeys : List String :=
  ["bubbleId:c1:x", "bubbleId:c1:y", "bubbleId:c1:z"]

set_option maxRecDepth 1000000 in
/-- Witness for C8's amended theorem: with three fragment keys for the
composer, the emitted session's counts are 3, 1 and 1. -/
theorem cursor_turn_count_amended_witness :
    ∃ s, s ∈ parse_cursor_sessions c1BubbleKeys lonelyComposerRows none none ∧
      s.turn_count = lookupCount (bubbleCounts c1BubbleKeys) s.id 1 ∧
      s.user_message_count = s.turn_count / 2 ∧
      s.assistant_message_count = s.turn_count / 2 := by
  refine ⟨mkCursorSession (bubbleCounts c1BubbleKeys) "composerData:c1"
      ⟨some 1000000, none⟩ (fromTimestampUtcMs 1000000), ?_, ?_⟩
  · decide
  · exact cursor_turn_count_amended c1BubbleKeys lonelyComposerRows _ (by decide)

/-- C9: aggregating the same session list twice for the same year
yields identical statistics in every field except generated_at — the
result of a run with wall clock t1 equals the result of a run with any
other wall clock t2 with only its generated_at field replaced, so the
aggregation carries no hidden randomness or wall-clock dependence
beyond that field. -/
theorem aggregate_stats_deterministic (sessions : List Session) (year : Int)
    (t1 t2 : PyDateTime) :
    aggregate_stats sessions year t1 = setGen (aggregate_stats sessions year t2) t1 ∧
    (aggregate_stats sessions year t1).generated_at = t1 := by
  have h : aggregate_stats sessions year t1 = setGen (aggregate_stats sessions year t2) t1 := by
    simp only [aggregate_stats]
    have hinit : aggInit sessions year t1 = setGen (aggInit sessions year t2) t1 := rfl
    rw [hinit, foldl_aggStep_setGen, aggTotals_setGen, aggFinish_setGen]
  exact ⟨h, by rw [h]; rfl⟩

/-- Timestamp 2025-06-15 23:30 at offset +00:00. -/
def lateUtc : PyDateTime :=
  ⟨2025, 6, 15, 23, 30, 0, 0, some 0⟩

/-- The same instant as lateUtc, stored as 2025-06-16 01:30 at offset
+02:00. -/
def earlyPlus2 : PyDateTime :=
  ⟨2025, 6, 16, 1, 30, 0, 0, some 120⟩

/-- Session starting at lateUtc. -/
def lateSession : Session :=
  Session.make { id := "late", agent := AgentType.claude, started_at := lateUtc }

/-- Session starting at earlyPlus2, the same instant as lateSession. -/
def earlySession : Session :=
  Session.make { id := "early", agent := AgentType.claude, started_at := earlyPlus2 }

/-- C10: hour_of_day is the stored hour attribute of started_at and
date_str its stored calendar date rendered as YYYY-MM-DD, with no
normalization to UTC; consequently the two sessions lateSession and
earlySession, which denote the same instant under different UTC
offsets, fall into different hour-of-day bins (23 versus 1) and
different daily-session bins (June 15 versus June 16) of the
aggregation. -/
theorem session_binning_uses_stored_fields (now : PyDateTime) :
    (∀ s : Session, s.hour_of_day = s.started_at.hour ∧
      s.date_str = pad4 s.started_at.year ++ "-" ++ pad2 s.started_at.month
        ++ "-" ++ pad2 s.started_at.day) ∧
    toEpochSecondsQ lateUtc = toEpochSecondsQ earlyPlus2 ∧
    lateSession.hour_of_day = 23 ∧ earlySession.hour_of_day = 1 ∧
    lateSession.date_str = "2025-06-15" ∧ earlySession.date_str = "2025-06-16" ∧
    (aggregate_stats [lateSession] 2025 now).hours_distribution = [(23, 1)] ∧
    (aggregate_stats [earlySession] 2025 now).hours_distribution = [(1, 1)] ∧
    (aggregate_stats [lateSession] 2025 now).daily_sessions = [("2025-06-15", 1)] ∧
    (aggregate_stats [earlySession] 2025 now).daily_sessions = [("2025-06-16", 1)] := by
  refine ⟨fun s => ⟨rfl, rfl⟩, ?_, by decide, by decide, by decide, by decide,
    rfl, rfl, rfl, rfl⟩
  simp [toEpochSecondsQ, toEpochSeconds, dateOrdinal, lateUtc, earlyPlus2]

end CodeWrapped
